import Mathlib

/-!
Verification of the signal-to-events pipeline of `Dashboard_home.py`.

The source file's core consists of:
* `detecteer_Rpieken(df, pct_drempel)` — computes `max(df['ECG'])` with
  Python's builtin `max` (raises on an empty column), a threshold
  `pct_drempel * max_ecg`, and calls `scipy.signal.find_peaks` with
  `height=threshold`, returning the selected rows `df.iloc[pieken]`.
* `initialize_data(uploaded_file)` — guarded by
  `'data_initialized' not in st.session_state`; stores the activity
  boundary list and label list, loads the CSV, derives
  `timestamp = (time - time[0]) / 1024`, labels samples with
  `pd.cut(timestamp, bins=intervallen, labels=activiteiten, ordered=False)`
  (pandas default `right=True`: bins are left-open/right-closed),
  computes `rr = timestamp.diff()`, `bpm = 60 / rr`,
  `gemiddelde_tijd = timestamp.rolling(window=2).mean()` on the peak rows,
  drops rows with `rr.isna()`, and stores the artifacts; any exception in
  the `try` block yields `st.error(...)` and `return False`.

Amplitudes and times are embedded as rationals; the IEEE special values
that actually arise in the pipeline columns (`NaN` from `diff`/`rolling`
on the first row, `inf` from `60 / 0.0`) are embedded explicitly in
`FloatVal`.  `scipy.signal.find_peaks` is embedded by translating the
loop of scipy's `_local_maxima_1d` (a peak is a maximal plateau with a
strictly smaller sample on each side, reported at the plateau midpoint,
first and last samples excluded), with explicit fuel in place of the
C `while` loop.
-/

namespace Dashboard

/-- IEEE float values that occur in the derived dataframe columns:
ordinary (rational) values, `NaN`, and `+inf`. -/
inductive FloatVal where
  | nan : FloatVal
  | inf : FloatVal
  | fin : ℚ → FloatVal
deriving DecidableEq

/-- `60 / rr` in float semantics: `60 / NaN = NaN`, `60 / 0.0 = inf`
(numpy emits a warning, no exception), `60 / inf = 0`, otherwise exact
rational division. -/
def div60 : FloatVal → FloatVal
  | FloatVal.nan => FloatVal.nan
  | FloatVal.inf => FloatVal.fin 0
  | FloatVal.fin q => if q = 0 then FloatVal.inf else FloatVal.fin (60 / q)

/-- One raw CSV row: the `time` tick counter and the `ECG` amplitude
(the acceleration columns are not consumed by the core). -/
structure Row where
  time : ℚ
  ecg : ℚ
deriving DecidableEq

/-- A row of `df_ecg` after `initialize_data` adds the derived columns:
`timestamp` (elapsed seconds) and `activiteit` (`none` embeds pandas
`NaN` for a value falling in no bin). -/
structure LRow where
  timestamp : ℚ
  ecg : ℚ
  activiteit : Option String
deriving DecidableEq

/-- A row of `df_ecg_pieken` after the `rr`, `bpm` and `gemiddelde_tijd`
columns are added. -/
structure PRow where
  timestamp : ℚ
  ecg : ℚ
  activiteit : Option String
  rr : FloatVal
  bpm : FloatVal
  gemiddelde_tijd : FloatVal
deriving DecidableEq

/-- `pd.cut(t, bins, labels, ordered=False)` with the pandas defaults
`right=True`, `include_lowest=False`, for strictly increasing `bins`:
`t` gets the label of the bin `(bins[i], bins[i+1]]` containing it, and
`NaN` (here `none`) when no bin contains it. -/
def pdCut (bins : List ℚ) (labels : List String) (t : ℚ) : Option String :=
  match bins, labels with
  | b0 :: b1 :: bs, l :: ls =>
      if b0 < t ∧ t ≤ b1 then some l else pdCut (b1 :: bs) ls t
  | _, _ => none

/-- Python's builtin `max` over an iterable: `none` embeds the
`ValueError` raised on an empty sequence. -/
def maxList : List ℚ → Option ℚ
  | [] => none
  | a :: as => some (as.foldl max a)

/-- The inner `while` loop of scipy's `_local_maxima_1d`: starting at
`j`, advance while `j < iMax` and `x[j] == v`; returns the first index
where that fails.  `fuel` bounds the iteration count (callers pass
`x.length`, which always suffices). -/
def scanPlateau (x : List ℚ) (iMax : Nat) (v : ℚ) (j fuel : Nat) : Nat :=
  match fuel with
  | 0 => j
  | fuel' + 1 =>
      if j < iMax ∧ x.getD j 0 = v then scanPlateau x iMax v (j + 1) fuel' else j

/-- The outer loop of scipy's `_local_maxima_1d`, entered at index `i`:
if `x[i-1] < x[i]`, scan the plateau of equal values ahead; if the value
after the plateau is strictly smaller, record the plateau midpoint
`(left + right) // 2` and resume after the plateau, else advance by one.
The loop runs while `i < len(x) - 1`, so the first and last samples are
never candidates. -/
def localMaxFrom (x : List ℚ) (i fuel : Nat) : List Nat :=
  match fuel with
  | 0 => []
  | fuel' + 1 =>
      if i < x.length - 1 then
        if x.getD (i - 1) 0 < x.getD i 0 then
          if x.getD (scanPlateau x (x.length - 1) (x.getD i 0) (i + 1) x.length) 0
              < x.getD i 0 then
            (i + scanPlateau x (x.length - 1) (x.getD i 0) (i + 1) x.length - 1) / 2
              :: localMaxFrom x
                  (scanPlateau x (x.length - 1) (x.getD i 0) (i + 1) x.length + 1) fuel'
          else localMaxFrom x (i + 1) fuel'
        else localMaxFrom x (i + 1) fuel'
      else []

/-- scipy `_local_maxima_1d`: all plateau-peak midpoints, scanning from
index 1. -/
def local_maxima_1d (x : List ℚ) : List Nat :=
  localMaxFrom x 1 x.length

/-- `scipy.signal.find_peaks(x, height=h)[0]`: the local maxima whose
sample value is at least `h` (the `height` bound is inclusive). -/
def find_peaks (x : List ℚ) (h : ℚ) : List Nat :=
  (local_maxima_1d x).filter (fun p => decide (h ≤ x.getD p 0))

/-- `detecteer_Rpieken`: `max_ecg = max(df['ECG'])` (builtin `max`, so a
`ValueError` on an empty frame, embedded as `Except.error`), threshold
`pct_drempel * max_ecg`, then the rows `df.iloc[pieken]` for the indices
found by `find_peaks`. -/
def detecteer_Rpieken (df : List LRow) (pct_drempel : ℚ) :
    Except String (List LRow) :=
  match maxList (df.map LRow.ecg) with
  | none => Except.error "ValueError: max() arg is an empty sequence"
  | some max_ecg =>
      Except.ok
        ((find_peaks (df.map LRow.ecg) (pct_drempel * max_ecg)).filterMap
          (fun p => df.get? p))

/-- The per-row content of the vectorised column assignments
`rr = timestamp.diff()`, `bpm = 60 / rr`,
`gemiddelde_tijd = timestamp.rolling(window=2).mean()`: `prev` is the
previous row's timestamp (`none` for the first row, where `diff` and
`rolling` produce `NaN`). -/
def addDerived (prev : Option ℚ) : List LRow → List PRow
  | [] => []
  | r :: rs =>
      { timestamp := r.timestamp, ecg := r.ecg, activiteit := r.activiteit,
        rr := match prev with
          | none => FloatVal.nan
          | some p => FloatVal.fin (r.timestamp - p),
        bpm := div60 (match prev with
          | none => FloatVal.nan
          | some p => FloatVal.fin (r.timestamp - p)),
        gemiddelde_tijd := match prev with
          | none => FloatVal.nan
          | some p => FloatVal.fin ((r.timestamp + p) / 2) }
        :: addDerived (some r.timestamp) rs

/-- Lines 91–94 of the source applied to the selected peak rows: add the
derived columns, then `df_ecg_pieken[df_ecg_pieken['rr'].notna()]` —
only rows whose `rr` is `NaN` are removed. -/
def beatStep (dfp : List LRow) : List PRow :=
  (addDerived none dfp).filter (fun b => decide (b.rr ≠ FloatVal.nan))

/-- The activity boundary list `st.session_state.intervallen` built at
lines 55–62 (note: `hond_uitlaten` is not included in the list). -/
def intervallen : List ℚ :=
  [0, 120, 240, 360, 2160, 3360, 4020, 6000, 6480, 6780, 7320]

/-- The activity label list `st.session_state.activiteiten`
(lines 65–68). -/
def activiteiten : List String :=
  ["zitten", "lopen", "schoenen aandoen", "lopen",
   "zitten", "lopen", "zitten", "lopen", "traplopen", "zitten"]

/-- `st.session_state.rpieken_drempel = 0.6` (line 52). -/
def rpieken_drempel : ℚ := 3 / 5

/-- The `try` block of `initialize_data` given the parsed rows: derive
`timestamp = (time - time[0]) / 1024` (an empty frame raises
`IndexError` at `.iloc[0]`), label every sample with `pd.cut`, detect
the R peaks, and derive the beat rows. -/
def process (rows : List Row) : Except String (List LRow × List PRow) :=
  match rows with
  | [] => Except.error "IndexError: single positional indexer is out-of-bounds"
  | r0 :: _ =>
      let df := rows.map (fun r =>
        { timestamp := (r.time - r0.time) / 1024, ecg := r.ecg,
          activiteit :=
            pdCut intervallen activiteiten ((r.time - r0.time) / 1024) })
      match detecteer_Rpieken df rpieken_drempel with
      | Except.error e => Except.error e
      | Except.ok dfp => Except.ok (df, beatStep dfp)

/-- The Streamlit session state entries touched by `initialize_data`.
An `Option` field embeds presence of the key; `data_initialized` is only
ever set to `True`, so its presence is a `Bool`. -/
structure SessionState where
  rpieken_drempel : Option ℚ
  intervallen : Option (List ℚ)
  activiteiten : Option (List String)
  df_ecg : Option (List LRow)
  df_ecg_pieken : Option (List PRow)
  data_initialized : Bool
deriving DecidableEq

/-- The configuration assignments of lines 38–76, performed before the
`try` block on a first call. -/
def setConfig (st : SessionState) : SessionState :=
  { st with rpieken_drempel := some rpieken_drempel,
            intervallen := some intervallen,
            activiteiten := some activiteiten }

/-- The outcome of `pd.read_csv` composed with the processing: a parse
failure (`Except.error`) propagates to the same `except` handler as a
processing failure. -/
def loadInput : Except String (List Row) → Except String (List LRow × List PRow)
  | Except.error e => Except.error e
  | Except.ok rows => process rows

/-- `initialize_data`: a no-op returning Python `None` when
`data_initialized` is already present; otherwise writes the
configuration, runs the `try` block, and either stores the two artifact
frames plus the flag and returns `True`, or catches the exception
(`st.error` + `return False`) leaving the artifacts untouched. -/
def initialize_data (st : SessionState) (input : Except String (List Row)) :
    SessionState × Option Bool :=
  if st.data_initialized then (st, none)
  else
    let st1 := setConfig st
    match loadInput input with
    | Except.ok dfs =>
        ({ st1 with df_ecg := some dfs.1,
                    df_ecg_pieken := some dfs.2,
                    data_initialized := true }, some true)
    | Except.error _ => (st1, some false)

/-- The spec's own definition of a local maximum (§4.1): an interior
sample that is `≥` both immediate neighbours and `>` at least one of
them.  Stated from the spec's words, for comparison with the scipy
behaviour embedded in `find_peaks`. -/
def specLocalMax (x : List ℚ) (i : Nat) : Prop :=
  1 ≤ i ∧ i + 1 < x.length ∧
  x.getD (i - 1) 0 ≤ x.getD i 0 ∧ x.getD (i + 1) 0 ≤ x.getD i 0 ∧
  (x.getD (i - 1) 0 < x.getD i 0 ∨ x.getD (i + 1) 0 < x.getD i 0)

instance (x : List ℚ) (i : Nat) : Decidable (specLocalMax x i) := by
  unfold specLocalMax; infer_instance

/-- `x[l..r]` is a plateau peak in the sense of scipy's
`_local_maxima_1d`: a maximal run of equal values strictly above the
sample on each side, with `l ≥ 1` and `r + 1 ≤ length - 1`.  Such a run
is reported once, at index `(l + r) / 2`. -/
def IsPlateauPeak (x : List ℚ) (l r : Nat) : Prop :=
  1 ≤ l ∧ l ≤ r ∧ r + 1 ≤ x.length - 1 ∧
  x.getD (l - 1) 0 < x.getD l 0 ∧
  (∀ j, l ≤ j → j ≤ r → x.getD j 0 = x.getD l 0) ∧
  x.getD (r + 1) 0 < x.getD l 0

/-! ## Small facts about `FloatVal` -/

@[simp] lemma fin_ne_nan (q : ℚ) : FloatVal.fin q ≠ FloatVal.nan :=
  fun h => FloatVal.noConfusion h

@[simp] lemma nan_ne_fin (q : ℚ) : FloatVal.nan ≠ FloatVal.fin q :=
  fun h => FloatVal.noConfusion h

@[simp] lemma inf_ne_nan : FloatVal.inf ≠ FloatVal.nan :=
  fun h => FloatVal.noConfusion h

/-! ## Basic facts about `pdCut` (the ActivitySegmenter) -/

lemma pairwise_getD_lt (L : List ℚ) (hp : List.Pairwise (· < ·) L)
    (j k : Nat) (hjk : j < k) (hk : k < L.length) :
    L.getD j 0 < L.getD k 0 := by
  have hj : j < L.length := lt_trans hjk hk
  rw [List.getD_eq_get?, List.get?_eq_get hj, List.getD_eq_get?, List.get?_eq_get hk]
  exact List.pairwise_iff_get.mp hp ⟨j, hj⟩ ⟨k, hk⟩ hjk

lemma pairwise_getD_le (L : List ℚ) (hp : List.Pairwise (· < ·) L)
    (j k : Nat) (hjk : j ≤ k) (hk : k < L.length) :
    L.getD j 0 ≤ L.getD k 0 := by
  rcases eq_or_lt_of_le hjk with rfl | h
  · exact le_refl _
  · exact le_of_lt (pairwise_getD_lt L hp j k h hk)

/-- `pd.cut` assigns to a query `t` lying in the half-open-from-the-left
bin `(bins[i], bins[i+1]]` exactly the label of that bin. -/
lemma pdCut_mem_interval :
    ∀ (bins : List ℚ) (labels : List String) (i : Nat) (t : ℚ),
      List.Pairwise (· < ·) bins →
      labels.length + 1 = bins.length →
      i + 1 < bins.length →
      bins.getD i 0 < t → t ≤ bins.getD (i + 1) 0 →
      pdCut bins labels t = some (labels.getD i "") := by
  intro bins
  induction bins with
  | nil => intro labels i t _ _ hi _ _; simp at hi
  | cons b0 rest ih =>
    intro labels i t hp hlen hi hlow hhigh
    match rest, labels with
    | [], _ =>
      simp only [List.length_cons, List.length_nil] at hi
      omega
    | b1 :: bs, [] =>
      simp only [List.length_cons, List.length_nil] at hlen
      omega
    | b1 :: bs, l :: ls =>
      cases i with
      | zero =>
        simp only [List.getD_cons_zero, List.getD_cons_succ] at hlow hhigh
        simp only [pdCut, List.getD_cons_zero]
        rw [if_pos ⟨hlow, hhigh⟩]
      | succ i' =>
        simp only [List.getD_cons_succ] at hlow hhigh
        have hp' : List.Pairwise (· < ·) (b1 :: bs) := hp.of_cons
        have hi' : i' + 1 < (b1 :: bs).length := by
          simp only [List.length_cons] at hi ⊢; omega
        have hb1 : b1 ≤ (b1 :: bs).getD i' 0 := by
          have := pairwise_getD_le (b1 :: bs) hp' 0 i' (Nat.zero_le i') (by omega)
          simpa using this
        have hnot : ¬ (b0 < t ∧ t ≤ b1) := by
          rintro ⟨-, h2⟩
          exact absurd (lt_of_le_of_lt hb1 hlow) (not_lt.mpr h2)
        simp only [pdCut]
        rw [if_neg hnot]
        have hlen' : ls.length + 1 = (b1 :: bs).length := by
          simp only [List.length_cons] at hlen ⊢; omega
        have := ih ls i' t hp' hlen' hi' hlow hhigh
        simpa [List.getD_cons_succ] using this

/-- `pd.cut` leaves a query at or below the first boundary, or strictly
above the last boundary, unlabeled (`NaN`), without an exception. -/
lemma pdCut_out_of_range :
    ∀ (bins : List ℚ) (labels : List String) (t : ℚ),
      List.Pairwise (· < ·) bins →
      (t ≤ bins.getD 0 0 ∨ bins.getD (bins.length - 1) 0 < t) →
      pdCut bins labels t = none := by
  intro bins
  induction bins with
  | nil => intro labels t _ _; cases labels <;> rfl
  | cons b0 rest ih =>
    intro labels t hp hout
    match rest, labels with
    | [], _ => cases labels <;> rfl
    | b1 :: bs, [] => rfl
    | b1 :: bs, l :: ls =>
      have hp' : List.Pairwise (· < ·) (b1 :: bs) := hp.of_cons
      have hb01 : b0 < b1 := (List.pairwise_cons.mp hp).1 b1 (List.mem_cons_self b1 bs)
      rcases hout with hle | hgt
      · simp only [List.getD_cons_zero] at hle
        have hnot : ¬ (b0 < t ∧ t ≤ b1) := by
          rintro ⟨h1, -⟩
          exact absurd (lt_of_le_of_lt hle h1) (lt_irrefl t)
        simp only [pdCut]
        rw [if_neg hnot]
        exact ih ls t hp' (Or.inl (by simpa using le_trans hle (le_of_lt hb01)))
      · have hlast :
            (b0 :: b1 :: bs).getD ((b0 :: b1 :: bs).length - 1) 0
              = (b1 :: bs).getD ((b1 :: bs).length - 1) 0 := by
          simp only [List.length_cons, Nat.add_sub_cancel, List.getD_cons_succ]
        rw [hlast] at hgt
        have hb1 : b1 ≤ (b1 :: bs).getD ((b1 :: bs).length - 1) 0 := by
          have := pairwise_getD_le (b1 :: bs) hp' 0 ((b1 :: bs).length - 1)
            (Nat.zero_le _) (by simp only [List.length_cons]; omega)
          simpa using this
        have hnot : ¬ (b0 < t ∧ t ≤ b1) := by
          rintro ⟨-, h2⟩
          exact absurd (lt_of_le_of_lt hb1 hgt) (not_lt.mpr h2)
        simp only [pdCut]
        rw [if_neg hnot]
        exact ih ls t hp' (Or.inr hgt)

/-- C1 (corrected): the code's boundary matching is left-open /
right-closed (`pd.cut` default `right=True`): for every query `t` with
`boundaries[0] < t ≤ boundaries[last]`, the segmenter assigns exactly
one label, namely that of the unique interval `i` with
`boundaries[i] < t ≤ boundaries[i+1]`; a sample exactly at boundary
`b[i]` belongs to interval `i-1`, not `i`: with boundaries `[0, 10, 20]`
and labels `["sitting", "walking"]`, a sample at elapsed 10.0 gets
`"sitting"` (not `"walking"`), one at 9.999 gets `"sitting"`, and one
exactly at boundary 0 is unlabeled. -/
theorem C1_boundary_matching :
    (∀ (bins : List ℚ) (labels : List String) (i : Nat) (t : ℚ),
        List.Pairwise (· < ·) bins →
        labels.length + 1 = bins.length →
        i + 1 < bins.length →
        bins.getD i 0 < t → t ≤ bins.getD (i + 1) 0 →
        pdCut bins labels t = some (labels.getD i "")) ∧
    pdCut [0, 10, 20] ["sitting", "walking"] 10 = some "sitting" ∧
    pdCut [0, 10, 20] ["sitting", "walking"] (9999 / 1000) = some "sitting" ∧
    pdCut [0, 10, 20] ["sitting", "walking"] 0 = none :=
  ⟨pdCut_mem_interval, by decide, by norm_num [pdCut], by decide⟩

/-- Witness for C1: interval `(10, 20]` of `[0, 10, 20]` carries
`"walking"`, checked at `t = 15`. -/
theorem C1_boundary_matching_witness :
    pdCut [0, 10, 20] ["sitting", "walking"] 15 = some "walking" := by
  have h := C1_boundary_matching.1 [0, 10, 20] ["sitting", "walking"] 1 15
    (by decide) (by decide) (by decide) (by decide) (by decide)
  simpa using h

/-- Counterexample to C1 as stated: the claim demands that a sample
exactly at boundary `10` get `"walking"` (interval `i`, left-closed) and
that every `t` with `boundaries[0] ≤ t < boundaries[last]` be labeled;
the code labels `10` with `"sitting"` and leaves `t = 0` unlabeled. -/
theorem C1_boundary_matching_counterexample :
    pdCut [0, 10, 20] ["sitting", "walking"] 10 ≠ some "walking" ∧
    pdCut [0, 10, 20] ["sitting", "walking"] 10 = some "sitting" ∧
    pdCut [0, 10, 20] ["sitting", "walking"] 0 = none := by
  refine ⟨by decide, by decide, by decide⟩

/-- C7 (corrected): a query at or below the *first* boundary, or
strictly beyond the final boundary, is explicitly unlabeled (`NaN`) —
not assigned to the nearest interval, and no error is raised; but a
query exactly *at* the final boundary is assigned the final interval's
label (not unlabeled, as the claim states). -/
theorem C7_out_of_range :
    (∀ (bins : List ℚ) (labels : List String) (t : ℚ),
        List.Pairwise (· < ·) bins →
        (t ≤ bins.getD 0 0 ∨ bins.getD (bins.length - 1) 0 < t) →
        pdCut bins labels t = none) ∧
    pdCut [0, 10, 20] ["sitting", "walking"] 20 = some "walking" ∧
    pdCut [0, 10, 20] ["sitting", "walking"] 25 = none ∧
    pdCut [0, 10, 20] ["sitting", "walking"] 0 = none :=
  ⟨pdCut_out_of_range, by decide, by decide, by decide⟩

/-- Witness for C7: `t = 25` lies beyond the final boundary of
`[0, 10, 20]` and is unlabeled. -/
theorem C7_out_of_range_witness :
    pdCut [0, 10, 20] ["sitting", "walking"] 25 = none :=
  C7_out_of_range.1 [0, 10, 20] ["sitting", "walking"] 25 (by decide)
    (Or.inr (by decide))

/-- Counterexample to C7 as stated: the claim demands an "unlabeled"
result for every query at or beyond the final boundary, but the code
labels a query exactly at the final boundary `20` with the last
interval's label. -/
theorem C7_out_of_range_counterexample :
    pdCut [0, 10, 20] ["sitting", "walking"] 20 = some "walking" ∧
    pdCut [0, 10, 20] ["sitting", "walking"] 20 ≠ none := by
  refine ⟨by decide, by decide⟩

/-! ## The BeatIntervalDeriver: `addDerived` / `beatStep` -/

lemma addDerived_length (prev : Option ℚ) (rs : List LRow) :
    (addDerived prev rs).length = rs.length := by
  induction rs generalizing prev with
  | nil => rfl
  | cons r rs ih => simp [addDerived, ih]

/-- Every row of the derived frame has `bpm = 60 / rr` (in float
semantics), and its `rr` is either `NaN` or an ordinary value. -/
lemma addDerived_bpm (prev : Option ℚ) (rs : List LRow) :
    ∀ b ∈ addDerived prev rs,
      b.bpm = div60 b.rr ∧
      (b.rr = FloatVal.nan ∨ ∃ q, b.rr = FloatVal.fin q) := by
  induction rs generalizing prev with
  | nil => intro b hb; cases hb
  | cons r rs ih =>
    intro b hb
    rcases List.mem_cons.mp hb with rfl | hb
    · refine ⟨rfl, ?_⟩
      cases prev with
      | none => exact Or.inl rfl
      | some p => exact Or.inr ⟨r.timestamp - p, rfl⟩
    · exact ih (some r.timestamp) b hb

/-- With a present predecessor timestamp, every derived row's `rr` is an
ordinary value, never `NaN`. -/
lemma addDerived_some_rr_ne_nan (p : ℚ) (rs : List LRow) :
    ∀ b ∈ addDerived (some p) rs, b.rr ≠ FloatVal.nan := by
  induction rs generalizing p with
  | nil => intro b hb; cases hb
  | cons r rs ih =>
    intro b hb
    rcases List.mem_cons.mp hb with rfl | hb
    · simp
    · exact ih r.timestamp b hb

/-- Hence the `notna` filter keeps every such row. -/
lemma filter_addDerived_some (p : ℚ) (rs : List LRow) :
    (addDerived (some p) rs).filter (fun b => decide (b.rr ≠ FloatVal.nan))
      = addDerived (some p) rs := by
  rw [List.filter_eq_self]
  intro b hb
  simpa using addDerived_some_rr_ne_nan p rs b hb

lemma beatStep_nil : beatStep [] = [] := rfl

/-- The `notna` filter removes exactly the first peak row. -/
lemma beatStep_cons (r : LRow) (rs : List LRow) :
    beatStep (r :: rs) = addDerived (some r.timestamp) rs := by
  have h1 : beatStep (r :: rs)
      = (addDerived (some r.timestamp) rs).filter
          (fun b => decide (b.rr ≠ FloatVal.nan)) := by
    simp only [beatStep, addDerived, List.filter_cons]
    norm_num
  rw [h1, filter_addDerived_some]

lemma beatStep_length (rs : List LRow) :
    (beatStep rs).length = rs.length - 1 := by
  cases rs with
  | nil => rfl
  | cons r rs => simp [beatStep_cons, addDerived_length]

/-- Index-wise description of the derived rows: entry `i` relates the
timestamps at positions `i` and `i + 1` of `prev :: rs`. -/
lemma addDerived_get? (rs : List LRow) :
    ∀ (p : ℚ) (i : Nat) (b : PRow),
      (addDerived (some p) rs).get? i = some b →
      b.rr = FloatVal.fin ((p :: rs.map LRow.timestamp).getD (i + 1) 0
              - (p :: rs.map LRow.timestamp).getD i 0) ∧
      b.gemiddelde_tijd = FloatVal.fin
        (((p :: rs.map LRow.timestamp).getD (i + 1) 0
          + (p :: rs.map LRow.timestamp).getD i 0) / 2) ∧
      b.bpm = div60 b.rr := by
  induction rs with
  | nil => intro p i b h; simp [addDerived] at h
  | cons r rs ih =>
    intro p i b h
    cases i with
    | zero =>
      simp only [addDerived, List.get?_cons_zero, Option.some.injEq] at h
      subst h
      simp [List.getD_cons_zero, List.getD_cons_succ]
    | succ i' =>
      simp only [addDerived, List.get?_cons_succ] at h
      have := ih r.timestamp i' b h
      simpa [List.getD_cons_succ] using this

/-- C5 (confirmed): for peaks at elapsed times `[1.0, 1.8, 2.7]` the
derived BeatSeries has exactly two entries, with
`rr_interval = 0.8, rate_bpm = 75, midpoint_time = 1.4` and
`rr_interval = 0.9, rate_bpm = 200/3 ≈ 66.67, midpoint_time = 2.25`;
in general the first peak is dropped (output length = peak count − 1),
and entry `i` has `rr_interval = elapsed[i+1] − elapsed[i]`,
`midpoint_time = (elapsed[i+1] + elapsed[i]) / 2`, and
`rate_bpm = 60 / rr_interval` (exact division whenever
`rr_interval ≠ 0`). -/
theorem C5_beat_interval_derivation :
    ((beatStep [⟨1, 5, none⟩, ⟨9/5, 5, none⟩, ⟨27/10, 5, none⟩]).map
        (fun b => (b.rr, b.bpm, b.gemiddelde_tijd))
      = [(FloatVal.fin (4/5), FloatVal.fin 75, FloatVal.fin (7/5)),
         (FloatVal.fin (9/10), FloatVal.fin (200/3), FloatVal.fin (9/4))]) ∧
    ∀ rs : List LRow,
      (beatStep rs).length = rs.length - 1 ∧
      ∀ (i : Nat) (b : PRow), (beatStep rs).get? i = some b →
        b.rr = FloatVal.fin ((rs.map LRow.timestamp).getD (i + 1) 0
                - (rs.map LRow.timestamp).getD i 0) ∧
        b.gemiddelde_tijd = FloatVal.fin
          (((rs.map LRow.timestamp).getD (i + 1) 0
            + (rs.map LRow.timestamp).getD i 0) / 2) ∧
        b.bpm = div60 b.rr ∧
        ∀ q : ℚ, b.rr = FloatVal.fin q → q ≠ 0 →
          b.bpm = FloatVal.fin (60 / q) := by
  constructor
  · norm_num [beatStep, addDerived, div60, List.filter_cons]
  · intro rs
    refine ⟨beatStep_length rs, ?_⟩
    intro i b h
    cases rs with
    | nil => simp [beatStep_nil] at h
    | cons r rs =>
      rw [beatStep_cons] at h
      have h3 := addDerived_get? rs r.timestamp i b h
      refine ⟨by simpa using h3.1, by simpa using h3.2.1, h3.2.2, ?_⟩
      intro q hq hq0
      rw [h3.2.2, hq]
      simp [div60, hq0]

/-- Witness for C5: the single beat derived from peaks at elapsed
seconds 1 and 3 has `rr = 2`, `midpoint = 2` and `bpm = 60 / 2 = 30`. -/
theorem C5_beat_interval_derivation_witness :
    ((beatStep [(⟨1, 5, none⟩ : LRow), ⟨3, 5, none⟩]).get? 0
      = some ⟨3, 5, none, FloatVal.fin 2, FloatVal.fin 30, FloatVal.fin 2⟩) ∧
    (⟨3, 5, none, FloatVal.fin 2, FloatVal.fin 30, FloatVal.fin 2⟩ : PRow).rr
      = FloatVal.fin
          (([(⟨1, 5, none⟩ : LRow), ⟨3, 5, none⟩].map LRow.timestamp).getD 1 0
           - ([(⟨1, 5, none⟩ : LRow), ⟨3, 5, none⟩].map LRow.timestamp).getD 0 0) ∧
    (⟨3, 5, none, FloatVal.fin 2, FloatVal.fin 30, FloatVal.fin 2⟩ : PRow).bpm
      = FloatVal.fin (60 / 2) := by
  have hget : (beatStep [(⟨1, 5, none⟩ : LRow), ⟨3, 5, none⟩]).get? 0
      = some ⟨3, 5, none, FloatVal.fin 2, FloatVal.fin 30, FloatVal.fin 2⟩ := by
    norm_num [beatStep, addDerived, div60, List.filter_cons]
  have h := (C5_beat_interval_derivation.2
      [(⟨1, 5, none⟩ : LRow), ⟨3, 5, none⟩]).2 0 _ hget
  refine ⟨hget, by simpa using h.1, ?_⟩
  have := h.2.2.2 2 (by simpa using h.1) (by norm_num)
  simpa using this

/-! ## Structure of a successful `process` run -/

/-- A successful run of the `try` block decomposes as: a nonempty input,
the labeled sample frame built by the `timestamp`/`pd.cut` columns, a
successful peak detection, and the beat derivation applied to the peak
rows. -/
lemma process_ok (rows : List Row) (df : List LRow) (beats : List PRow) :
    process rows = Except.ok (df, beats) →
    ∃ (r0 : Row) (rest : List Row), rows = r0 :: rest ∧
      df = rows.map (fun r =>
        ({ timestamp := (r.time - r0.time) / 1024, ecg := r.ecg,
           activiteit := pdCut intervallen activiteiten
             ((r.time - r0.time) / 1024) } : LRow)) ∧
      ∃ dfp : List LRow,
        detecteer_Rpieken df rpieken_drempel = Except.ok dfp ∧
        beats = beatStep dfp := by
  intro h
  cases rows with
  | nil => simp [process] at h
  | cons r0 rest =>
    refine ⟨r0, rest, rfl, ?_⟩
    simp only [process] at h
    cases hdet : detecteer_Rpieken
        ((r0 :: rest).map (fun r =>
          ({ timestamp := (r.time - r0.time) / 1024, ecg := r.ecg,
             activiteit := pdCut intervallen activiteiten
               ((r.time - r0.time) / 1024) } : LRow)))
        rpieken_drempel with
    | error e => rw [hdet] at h; cases h
    | ok dfp =>
      rw [hdet] at h
      have hpair := Except.ok.inj h
      have hdf : df = (r0 :: rest).map (fun r =>
          ({ timestamp := (r.time - r0.time) / 1024, ecg := r.ecg,
             activiteit := pdCut intervallen activiteiten
               ((r.time - r0.time) / 1024) } : LRow)) :=
        (congrArg Prod.fst hpair).symm
      refine ⟨hdf, dfp, ?_, (congrArg Prod.snd hpair).symm⟩
      rw [hdf]
      exact hdet

/-! ## C2: degenerate RR intervals are retained, not dropped -/

/-- The five-row input whose two detected peaks share the elapsed
timestamp 1 (the `time` ticks repeat), producing `rr = 0`. -/
def c2rows : List Row := [⟨0, 0⟩, ⟨1024, 5⟩, ⟨1024, 0⟩, ⟨1024, 5⟩, ⟨2048, 0⟩]

/-- The labeled sample frame `process` derives from `c2rows`. -/
def c2df : List LRow :=
  [⟨0, 0, none⟩, ⟨1, 5, some "zitten"⟩, ⟨1, 0, some "zitten"⟩,
   ⟨1, 5, some "zitten"⟩, ⟨2, 0, some "zitten"⟩]

/-- The beat frame `process` derives from `c2rows`: one retained beat
with `rr = 0` and `bpm = inf`. -/
def c2beats : List PRow :=
  [⟨1, 5, some "zitten", FloatVal.fin 0, FloatVal.inf, FloatVal.fin 1⟩]

/-- Counterexample to C2 as stated: on `c2rows` the pipeline retains a
beat whose `rr_interval` is `0` (with `rate_bpm = inf`), so it is false
that every retained beat has `rr_interval > 0`. -/
theorem C2_degenerate_rr_counterexample :
    ¬ (∀ (df : List LRow) (beats : List PRow),
        process c2rows = Except.ok (df, beats) →
        ∀ b ∈ beats, ∃ q : ℚ, b.rr = FloatVal.fin q ∧ 0 < q) := by
  intro hclaim
  have hproc : process c2rows = Except.ok (c2df, c2beats) := by
    norm_num [process, c2rows, c2df, c2beats, detecteer_Rpieken, maxList,
      rpieken_drempel, find_peaks, local_maxima_1d, localMaxFrom, scanPlateau,
      intervallen, activiteiten, pdCut, beatStep, addDerived, div60,
      List.filter_cons]
  have hb := hclaim c2df c2beats hproc
    ⟨1, 5, some "zitten", FloatVal.fin 0, FloatVal.inf, FloatVal.fin 1⟩
    (List.mem_singleton.mpr rfl)
  obtain ⟨q, hq, hq0⟩ := hb
  have : (0 : ℚ) = q := by
    have := FloatVal.fin.inj hq
    simpa using this
  rw [← this] at hq0
  exact lt_irrefl 0 hq0

/-- C2 (corrected): the `notna` filter drops only the first peak (whose
`rr` is `NaN`); every retained beat has an ordinary (finite) `rr`, and
`rate_bpm` is exactly `60 / rr` in float semantics — in particular a
zero `rr_interval` is *retained* with `rate_bpm = inf`, not excluded. -/
theorem C2_degenerate_rr :
    ∀ (rows : List Row) (df : List LRow) (beats : List PRow),
      process rows = Except.ok (df, beats) →
      ∀ b ∈ beats,
        (∃ q : ℚ, b.rr = FloatVal.fin q) ∧
        b.bpm = div60 b.rr ∧
        (b.rr = FloatVal.fin 0 → b.bpm = FloatVal.inf) ∧
        ∀ q : ℚ, b.rr = FloatVal.fin q → q ≠ 0 →
          b.bpm = FloatVal.fin (60 / q) := by
  intro rows df beats hproc b hb
  obtain ⟨r0, rest, -, -, dfp, -, rfl⟩ := process_ok rows df beats hproc
  have hmem : b ∈ addDerived none dfp ∧ b.rr ≠ FloatVal.nan := by
    have := List.mem_filter.mp hb
    exact ⟨this.1, by simpa using this.2⟩
  have hfacts := addDerived_bpm none dfp b hmem.1
  have hfin : ∃ q : ℚ, b.rr = FloatVal.fin q := by
    rcases hfacts.2 with hnan | hfin
    · exact absurd hnan hmem.2
    · exact hfin
  refine ⟨hfin, hfacts.1, ?_, ?_⟩
  · intro h0
    rw [hfacts.1, h0]
    simp [div60]
  · intro q hq hq0
    rw [hfacts.1, hq]
    simp [div60, hq0]

/-- Witness for C2 (corrected): applied to the concrete run on
`c2rows`, whose single retained beat has `rr = 0` and `bpm = inf`. -/
theorem C2_degenerate_rr_witness :
    ((⟨1, 5, some "zitten", FloatVal.fin 0, FloatVal.inf, FloatVal.fin 1⟩ :
        PRow).bpm = div60 (FloatVal.fin 0)) ∧
    ((⟨1, 5, some "zitten", FloatVal.fin 0, FloatVal.inf, FloatVal.fin 1⟩ :
        PRow).bpm = FloatVal.inf) := by
  have hproc : process c2rows = Except.ok (c2df, c2beats) := by
    norm_num [process, c2rows, c2df, c2beats, detecteer_Rpieken, maxList,
      rpieken_drempel, find_peaks, local_maxima_1d, localMaxFrom, scanPlateau,
      intervallen, activiteiten, pdCut, beatStep, addDerived, div60,
      List.filter_cons]
  have h := C2_degenerate_rr c2rows c2df c2beats hproc
    ⟨1, 5, some "zitten", FloatVal.fin 0, FloatVal.inf, FloatVal.fin 1⟩
    (List.mem_singleton.mpr rfl)
  exact ⟨by rw [h.2.1], h.2.2.1 rfl⟩

/-! ## C3: behaviour on empty input -/

/-- Counterexample to C3 as stated: on an empty series the PeakDetector
does *not* return an empty list — `max(df['ECG'])` raises `ValueError`
(and inside the pipeline, the timestamp derivation raises `IndexError`
at `.iloc[0]` even earlier). -/
theorem C3_empty_input_counterexample :
    detecteer_Rpieken ([] : List LRow) (3/5) ≠ Except.ok [] ∧
    detecteer_Rpieken ([] : List LRow) (3/5)
      = Except.error "ValueError: max() arg is an empty sequence" ∧
    process ([] : List Row)
      = Except.error "IndexError: single positional indexer is out-of-bounds" := by
  refine ⟨fun h => Except.noConfusion h, rfl, rfl⟩

/-- C3 (corrected): on an empty input series the pipeline raises rather
than returning empty artifacts: `detecteer_Rpieken` raises `ValueError`
(builtin `max` of an empty sequence), the pipeline's timestamp step
raises `IndexError`, and `initialize_data` catches the exception,
reports the failure (`return False`) and stores no artifacts; the beat
derivation is never reached. -/
theorem C3_empty_input :
    ∀ (pct : ℚ) (st : SessionState),
      detecteer_Rpieken ([] : List LRow) pct
        = Except.error "ValueError: max() arg is an empty sequence" ∧
      process ([] : List Row)
        = Except.error "IndexError: single positional indexer is out-of-bounds" ∧
      (st.data_initialized = false →
        initialize_data st (Except.ok []) = (setConfig st, some false)) := by
  intro pct st
  refine ⟨rfl, rfl, ?_⟩
  intro hflag
  simp [initialize_data, hflag, loadInput, process]

/-- Witness for C3: the failing empty-input run from a fresh session
state. -/
theorem C3_empty_input_witness :
    initialize_data ⟨none, none, none, none, none, false⟩ (Except.ok [])
      = (setConfig ⟨none, none, none, none, none, false⟩, some false) :=
  (C3_empty_input (3/5) ⟨none, none, none, none, none, false⟩).2.2 rfl

/-! ## C4: a re-run after completion is a no-op -/

/-- A fresh session state: no keys present. -/
def st0 : SessionState := ⟨none, none, none, none, none, false⟩

/-- First uploaded file. -/
def rowsA : List Row := [⟨0, 1⟩, ⟨1024, 5⟩, ⟨2048, 1⟩]

/-- Second uploaded file (different data). -/
def rowsB : List Row := [⟨0, 2⟩, ⟨1024, 7⟩, ⟨2048, 2⟩]

/-- The sample frame a run on `rowsA` produces. -/
def dfA : List LRow :=
  [⟨0, 1, none⟩, ⟨1, 5, some "zitten"⟩, ⟨2, 1, some "zitten"⟩]

/-- The sample frame a fresh run on `rowsB` would produce. -/
def dfB : List LRow :=
  [⟨0, 2, none⟩, ⟨1, 7, some "zitten"⟩, ⟨2, 2, some "zitten"⟩]

/-- The session state after a successful first run on `rowsA`. -/
def stA : SessionState :=
  ⟨some rpieken_drempel, some intervallen, some activiteiten,
   some dfA, some [], true⟩

/-- Counterexample to C4 as stated: after a completed run on `rowsA`,
calling `initialize_data` again with the new upload `rowsB` leaves the
session state untouched (and returns Python `None`): the stored sample
series is still the one derived from `rowsA`, not the one a fresh run on
`rowsB` would produce — nothing is recomputed or replaced. -/
theorem C4_rerun_counterexample :
    initialize_data st0 (Except.ok rowsA) = (stA, some true) ∧
    initialize_data stA (Except.ok rowsB) = (stA, none) ∧
    process rowsB = Except.ok (dfB, []) ∧
    stA.df_ecg = some dfA ∧
    some dfA ≠ some dfB := by
  have h1 : process rowsA = Except.ok (dfA, []) := by
    norm_num [process, rowsA, dfA, detecteer_Rpieken, maxList,
      rpieken_drempel, find_peaks, local_maxima_1d, localMaxFrom, scanPlateau,
      intervallen, activiteiten, pdCut, beatStep, addDerived, div60,
      List.filter_cons]
  have h2 : process rowsB = Except.ok (dfB, []) := by
    norm_num [process, rowsB, dfB, detecteer_Rpieken, maxList,
      rpieken_drempel, find_peaks, local_maxima_1d, localMaxFrom, scanPlateau,
      intervallen, activiteiten, pdCut, beatStep, addDerived, div60,
      List.filter_cons]
  refine ⟨?_, ?_, h2, rfl, by decide⟩
  · simp [initialize_data, st0, loadInput, h1, stA, setConfig]
  · simp [initialize_data, stA]

/-- C4 (corrected): only the very first call of `initialize_data`
computes anything; once `data_initialized` is present every later call
— in particular one triggered by uploading a new file after a completed
run — is a no-op returning Python `None`: the previous run's artifacts
are kept unchanged and nothing is recomputed from the new input. -/
theorem C4_rerun_is_noop :
    ∀ (st : SessionState) (input : Except String (List Row)),
      st.data_initialized = true →
      initialize_data st input = (st, none) := by
  intro st input h
  simp [initialize_data, h]

/-- Witness for C4 (corrected): the state after the `rowsA` run ignores
the `rowsB` upload. -/
theorem C4_rerun_is_noop_witness :
    initialize_data stA (Except.ok rowsB) = (stA, none) :=
  C4_rerun_is_noop stA (Except.ok rowsB) rfl

/-! ## C8: fatal errors abort the run leaving the artifacts unset -/

/-- C8 (confirmed): when loading or processing fails, `initialize_data`
returns the single failure report (`st.error` + `return False`), and
the artifact entries `df_ecg`, `df_ecg_pieken` and the
`data_initialized` flag are exactly as they were before the call (in
particular still unset on a first run): no partial artifacts are
produced. -/
theorem C8_fatal_error_no_partial_artifacts :
    ∀ (st : SessionState) (input : Except String (List Row)) (e : String),
      st.data_initialized = false →
      loadInput input = Except.error e →
      initialize_data st input = (setConfig st, some false) ∧
      (setConfig st).df_ecg = st.df_ecg ∧
      (setConfig st).df_ecg_pieken = st.df_ecg_pieken ∧
      (setConfig st).data_initialized = st.data_initialized := by
  intro st input e hflag herr
  refine ⟨?_, rfl, rfl, rfl⟩
  simp [initialize_data, hflag, herr]

/-- Witness for C8: a failing load (`read_csv` raised) from a fresh
state stores nothing and reports `False`. -/
theorem C8_fatal_error_no_partial_artifacts_witness :
    initialize_data st0 (Except.error "ParserError") = (setConfig st0, some false) ∧
    (setConfig st0).df_ecg = st0.df_ecg ∧
    (setConfig st0).df_ecg_pieken = st0.df_ecg_pieken ∧
    (setConfig st0).data_initialized = st0.data_initialized :=
  C8_fatal_error_no_partial_artifacts st0 (Except.error "ParserError")
    "ParserError" rfl rfl

/-! ## C9: beat labels agree with sample labels -/

/-- Every derived beat row carries the `timestamp` and `activiteit` of
one of the peak rows it was built from. -/
lemma addDerived_src (prev : Option ℚ) (rs : List LRow) :
    ∀ b ∈ addDerived prev rs, ∃ r ∈ rs,
      b.timestamp = r.timestamp ∧ b.activiteit = r.activiteit := by
  induction rs generalizing prev with
  | nil => intro b hb; cases hb
  | cons r rs ih =>
    intro b hb
    rcases List.mem_cons.mp hb with rfl | hb
    · exact ⟨r, List.mem_cons_self r rs, rfl, rfl⟩
    · obtain ⟨r', hr', h1, h2⟩ := ih (some r.timestamp) b hb
      exact ⟨r', List.mem_cons_of_mem r hr', h1, h2⟩

lemma beatStep_src (dfp : List LRow) :
    ∀ b ∈ beatStep dfp, ∃ r ∈ dfp,
      b.timestamp = r.timestamp ∧ b.activiteit = r.activiteit := by
  intro b hb
  exact addDerived_src none dfp b (List.mem_filter.mp hb).1

/-- The peak rows selected by `df.iloc[pieken]` are rows of `df`. -/
lemma detecteer_sub (df : List LRow) (pct : ℚ) (out : List LRow) :
    detecteer_Rpieken df pct = Except.ok out → ∀ r ∈ out, r ∈ df := by
  intro h r hr
  unfold detecteer_Rpieken at h
  cases hmax : maxList (df.map LRow.ecg) with
  | none => rw [hmax] at h; cases h
  | some m =>
    rw [hmax] at h
    have hout := Except.ok.inj h
    rw [← hout] at hr
    obtain ⟨p, _, hget⟩ := List.mem_filterMap.mp hr
    exact List.get?_mem hget

/-- C9 (confirmed): label assignment commutes with beat extraction —
every beat in the output carries exactly the label the segmenter
(`pd.cut` with the session's boundary/label table) assigns to its
elapsed timestamp, and that label coincides with the label of the
corresponding sample of the full labeled series. -/
theorem C9_label_consistency :
    ∀ (rows : List Row) (df : List LRow) (beats : List PRow),
      process rows = Except.ok (df, beats) →
      ∀ b ∈ beats,
        b.activiteit = pdCut intervallen activiteiten b.timestamp ∧
        ∃ s ∈ df, s.timestamp = b.timestamp ∧ s.activiteit = b.activiteit := by
  intro rows df beats hproc b hb
  obtain ⟨r0, rest, hrows, hdf, dfp, hdet, hbeats⟩ := process_ok rows df beats hproc
  subst hbeats
  obtain ⟨r, hr, ht, ha⟩ := beatStep_src dfp b hb
  have hrdf : r ∈ df := detecteer_sub df rpieken_drempel dfp hdet r hr
  have hlab : ∀ s ∈ df,
      s.activiteit = pdCut intervallen activiteiten s.timestamp := by
    intro s hs
    rw [hdf] at hs
    obtain ⟨rr, -, hs⟩ := List.mem_map.mp hs
    subst hs
    rfl
  refine ⟨?_, r, hrdf, ht.symm, ha.symm⟩
  rw [ha, hlab r hrdf, ← ht]

/-- The five-row input with two distinct-timestamp peaks used to witness
C9. -/
def rows5 : List Row :=
  [⟨0, 1⟩, ⟨1024, 5⟩, ⟨2048, 1⟩, ⟨3072, 5⟩, ⟨4096, 1⟩]

/-- The labeled sample frame of `rows5`. -/
def df5 : List LRow :=
  [⟨0, 1, none⟩, ⟨1, 5, some "zitten"⟩, ⟨2, 1, some "zitten"⟩,
   ⟨3, 5, some "zitten"⟩, ⟨4, 1, some "zitten"⟩]

/-- The single retained beat of `rows5`. -/
def beat5 : PRow :=
  ⟨3, 5, some "zitten", FloatVal.fin 2, FloatVal.fin 30, FloatVal.fin 2⟩

/-- Witness for C9: the retained beat of `rows5` carries the label of
its sample. -/
theorem C9_label_consistency_witness :
    beat5.activiteit = pdCut intervallen activiteiten beat5.timestamp ∧
    ∃ s ∈ df5, s.timestamp = beat5.timestamp ∧ s.activiteit = beat5.activiteit := by
  have hproc : process rows5 = Except.ok (df5, [beat5]) := by
    norm_num [process, rows5, df5, beat5, detecteer_Rpieken, maxList,
      rpieken_drempel, find_peaks, local_maxima_1d, localMaxFrom, scanPlateau,
      intervallen, activiteiten, pdCut, beatStep, addDerived, div60,
      List.filter_cons]
  exact C9_label_consistency rows5 df5 [beat5] hproc beat5
    (List.mem_singleton.mpr rfl)

/-! ## Characterisation of scipy's `_local_maxima_1d` -/

lemma scanPlateau_ge (x : List ℚ) (iMax : Nat) (v : ℚ) :
    ∀ (fuel j : Nat), j ≤ scanPlateau x iMax v j fuel := by
  intro fuel
  induction fuel with
  | zero => intro j; exact le_refl j
  | succ fuel ih =>
    intro j
    simp only [scanPlateau]
    split
    · exact le_trans (Nat.le_succ j) (ih (j + 1))
    · exact le_refl j

lemma scanPlateau_le_iMax (x : List ℚ) (iMax : Nat) (v : ℚ) :
    ∀ (fuel j : Nat), j ≤ iMax → scanPlateau x iMax v j fuel ≤ iMax := by
  intro fuel
  induction fuel with
  | zero => intro j hj; exact hj
  | succ fuel ih =>
    intro j hj
    simp only [scanPlateau]
    split
    · next h => exact ih (j + 1) h.1
    · exact hj

/-- Every index passed over by the plateau scan holds the plateau value
and lies inside the scanned range. -/
lemma scanPlateau_run (x : List ℚ) (iMax : Nat) (v : ℚ) :
    ∀ (fuel j k : Nat), j ≤ k → k < scanPlateau x iMax v j fuel →
      k < iMax ∧ x.getD k 0 = v := by
  intro fuel
  induction fuel with
  | zero =>
    intro j k hjk hk
    exact absurd hk (not_lt.mpr hjk)
  | succ fuel ih =>
    intro j k hjk hk
    simp only [scanPlateau] at hk
    by_cases h : j < iMax ∧ x.getD j 0 = v
    · rw [if_pos h] at hk
      rcases eq_or_lt_of_le hjk with rfl | hjk'
      · exact h
      · exact ih (j + 1) k hjk' hk
    · rw [if_neg h] at hk
      exact absurd hk (not_lt.mpr hjk)

/-- With enough fuel, the scan stops at an index that fails the loop
condition. -/
lemma scanPlateau_stop (x : List ℚ) (iMax : Nat) (v : ℚ) :
    ∀ (fuel j : Nat), iMax ≤ j + fuel →
      ¬ (scanPlateau x iMax v j fuel < iMax ∧
         x.getD (scanPlateau x iMax v j fuel) 0 = v) := by
  intro fuel
  induction fuel with
  | zero =>
    intro j hfuel
    simp only [scanPlateau]
    rintro ⟨h1, -⟩
    omega
  | succ fuel ih =>
    intro j hfuel
    simp only [scanPlateau]
    by_cases h : j < iMax ∧ x.getD j 0 = v
    · rw [if_pos h]
      exact ih (j + 1) (by omega)
    · rw [if_neg h]
      exact h

/-- The central invariant: entered at index `i ≥ 1` with enough fuel,
the scipy loop reports exactly the midpoints of the plateau peaks whose
left edge is `≥ i`. -/
lemma localMaxFrom_mem (x : List ℚ) :
    ∀ (fuel i : Nat), 1 ≤ i → x.length ≤ i + fuel →
      ∀ m, m ∈ localMaxFrom x i fuel ↔
        ∃ l r, i ≤ l ∧ IsPlateauPeak x l r ∧ m = (l + r) / 2 := by
  intro fuel
  induction fuel with
  | zero =>
    intro i hi hlen m
    constructor
    · intro hm
      exact absurd hm (List.not_mem_nil m)
    · rintro ⟨l, r, hil, ⟨-, hlr, hrn, -, -, -⟩, -⟩
      exfalso
      omega
  | succ fuel ih =>
    intro i hi hlen m
    by_cases h1 : i < x.length - 1
    case neg =>
      have heq : localMaxFrom x i (fuel + 1) = [] := by
        simp only [localMaxFrom, if_neg h1]
      rw [heq]
      constructor
      · intro hm
        exact absurd hm (List.not_mem_nil m)
      · rintro ⟨l, r, hil, ⟨-, hlr, hrn, -, -, -⟩, -⟩
        exfalso
        omega
    case pos =>
      by_cases h2 : x.getD (i - 1) 0 < x.getD i 0
      case neg =>
        have heq : localMaxFrom x i (fuel + 1) = localMaxFrom x (i + 1) fuel := by
          simp only [localMaxFrom, if_pos h1, if_neg h2]
        rw [heq, ih (i + 1) (by omega) (by omega) m]
        constructor
        · rintro ⟨l, r, hil, hp, hm⟩
          exact ⟨l, r, by omega, hp, hm⟩
        · rintro ⟨l, r, hil, hp, hm⟩
          rcases eq_or_lt_of_le hil with rfl | hlgt
          · exact absurd hp.2.2.2.1 h2
          · exact ⟨l, r, by omega, hp, hm⟩
      case pos =>
        set iA := scanPlateau x (x.length - 1) (x.getD i 0) (i + 1) x.length
          with hiA
        have hA1 : i + 1 ≤ iA :=
          scanPlateau_ge x (x.length - 1) (x.getD i 0) x.length (i + 1)
        have hA2 : iA ≤ x.length - 1 :=
          scanPlateau_le_iMax x (x.length - 1) (x.getD i 0) x.length (i + 1)
            (by omega)
        have hA3 : ∀ k, i + 1 ≤ k → k < iA →
            k < x.length - 1 ∧ x.getD k 0 = x.getD i 0 :=
          fun k hk1 hk2 =>
            scanPlateau_run x (x.length - 1) (x.getD i 0) x.length (i + 1) k
              hk1 hk2
        have hA4 : ¬ (iA < x.length - 1 ∧ x.getD iA 0 = x.getD i 0) :=
          scanPlateau_stop x (x.length - 1) (x.getD i 0) x.length (i + 1)
            (by omega)
        have hrun : ∀ j, i ≤ j → j < iA → x.getD j 0 = x.getD i 0 := by
          intro j hj1 hj2
          rcases eq_or_lt_of_le hj1 with rfl | hj
          · rfl
          · exact (hA3 j hj hj2).2
        have hKey : ∀ r, IsPlateauPeak x i r ↔
            (x.getD iA 0 < x.getD i 0 ∧ r = iA - 1) := by
          intro r
          constructor
          · rintro ⟨-, hir, hrn, -, heq, hdrop⟩
            have hr1 : r + 1 = iA := by
              rcases lt_trichotomy (r + 1) iA with hc | hc | hc
              · exfalso
                have hk := hA3 (r + 1) (by omega) hc
                rw [hk.2] at hdrop
                exact lt_irrefl _ hdrop
              · exact hc
              · exfalso
                have hgiA : x.getD iA 0 = x.getD i 0 :=
                  heq iA (by omega) (by omega)
                have hge : ¬ iA < x.length - 1 := fun hlt => hA4 ⟨hlt, hgiA⟩
                omega
            refine ⟨?_, by omega⟩
            rw [← hr1]
            exact hdrop
          · rintro ⟨hlt, rfl⟩
            refine ⟨hi, by omega, by omega, h2, ?_, ?_⟩
            · intro j hj1 hj2
              exact hrun j hj1 (by omega)
            · have he : iA - 1 + 1 = iA := by omega
              rw [he]
              exact hlt
        by_cases h3 : x.getD iA 0 < x.getD i 0
        case pos =>
          have heq : localMaxFrom x i (fuel + 1)
              = (i + iA - 1) / 2 :: localMaxFrom x (iA + 1) fuel := by
            simp only [localMaxFrom, if_pos h1, if_pos h2, ← hiA, if_pos h3]
          rw [heq, List.mem_cons, ih (iA + 1) (by omega) (by omega) m]
          constructor
          · rintro (rfl | ⟨l, r, hl, hp, hm⟩)
            · exact ⟨i, iA - 1, le_refl i, (hKey (iA - 1)).mpr ⟨h3, rfl⟩,
                by omega⟩
            · exact ⟨l, r, by omega, hp, hm⟩
          · rintro ⟨l, r, hil, hp, hm⟩
            rcases eq_or_lt_of_le hil with rfl | hlgt
            · left
              have hk := (hKey r).mp hp
              rw [hk.2] at hm
              omega
            · right
              have hliA : iA + 1 ≤ l := by
                by_contra hcon
                have hl_le : l ≤ iA := by omega
                rcases eq_or_lt_of_le hl_le with heq2 | hlt2
                · have hgl1 : x.getD (l - 1) 0 = x.getD i 0 :=
                    hrun (l - 1) (by omega) (by omega)
                  have hllt := hp.2.2.2.1
                  rw [hgl1, heq2] at hllt
                  exact absurd hllt (lt_asymm h3)
                · have hgl : x.getD l 0 = x.getD i 0 :=
                    hrun l (by omega) hlt2
                  have hgl1 : x.getD (l - 1) 0 = x.getD i 0 :=
                    hrun (l - 1) (by omega) (by omega)
                  have hllt := hp.2.2.2.1
                  rw [hgl, hgl1] at hllt
                  exact lt_irrefl _ hllt
              exact ⟨l, r, hliA, hp, hm⟩
        case neg =>
          have heq : localMaxFrom x i (fuel + 1) = localMaxFrom x (i + 1) fuel := by
            simp only [localMaxFrom, if_pos h1, if_pos h2, ← hiA, if_neg h3]
          rw [heq, ih (i + 1) (by omega) (by omega) m]
          constructor
          · rintro ⟨l, r, hl, hp, hm⟩
            exact ⟨l, r, by omega, hp, hm⟩
          · rintro ⟨l, r, hil, hp, hm⟩
            rcases eq_or_lt_of_le hil with rfl | hlgt
            · exact absurd ((hKey r).mp hp).1 h3
            · exact ⟨l, r, by omega, hp, hm⟩

/-- scipy's peak list = the set of plateau-peak midpoints. -/
lemma local_maxima_1d_mem (x : List ℚ) (m : Nat) :
    m ∈ local_maxima_1d x ↔
      ∃ l r, IsPlateauPeak x l r ∧ m = (l + r) / 2 := by
  rw [local_maxima_1d, localMaxFrom_mem x x.length 1 (le_refl 1) (by omega) m]
  constructor
  · rintro ⟨l, r, -, hp, hm⟩
    exact ⟨l, r, hp, hm⟩
  · rintro ⟨l, r, hp, hm⟩
    exact ⟨l, r, hp.1, hp, hm⟩

/-- Full membership description of `find_peaks`. -/
lemma find_peaks_mem (x : List ℚ) (h : ℚ) (p : Nat) :
    p ∈ find_peaks x h ↔
      (∃ l r, IsPlateauPeak x l r ∧ p = (l + r) / 2) ∧ h ≤ x.getD p 0 := by
  rw [find_peaks, List.mem_filter, local_maxima_1d_mem]
  simp only [decide_eq_true_eq]

lemma localMaxFrom_lb (x : List ℚ) :
    ∀ (fuel i m : Nat), m ∈ localMaxFrom x i fuel → i ≤ m := by
  intro fuel
  induction fuel with
  | zero =>
    intro i m hm
    exact absurd hm (List.not_mem_nil m)
  | succ fuel ih =>
    intro i m hm
    simp only [localMaxFrom] at hm
    by_cases h1 : i < x.length - 1
    · rw [if_pos h1] at hm
      by_cases h2 : x.getD (i - 1) 0 < x.getD i 0
      · rw [if_pos h2] at hm
        set iA := scanPlateau x (x.length - 1) (x.getD i 0) (i + 1) x.length
          with hiA
        have hA1 : i + 1 ≤ iA :=
          scanPlateau_ge x (x.length - 1) (x.getD i 0) x.length (i + 1)
        by_cases h3 : x.getD iA 0 < x.getD i 0
        · rw [if_pos h3] at hm
          rcases List.mem_cons.mp hm with rfl | hm
          · omega
          · have := ih (iA + 1) m hm
            omega
        · rw [if_neg h3] at hm
          have := ih (i + 1) m hm
          omega
      · rw [if_neg h2] at hm
        have := ih (i + 1) m hm
        omega
    · rw [if_neg h1] at hm
      exact absurd hm (List.not_mem_nil m)

lemma localMaxFrom_pairwise (x : List ℚ) :
    ∀ (fuel i : Nat), List.Pairwise (· < ·) (localMaxFrom x i fuel) := by
  intro fuel
  induction fuel with
  | zero => intro i; exact List.Pairwise.nil
  | succ fuel ih =>
    intro i
    simp only [localMaxFrom]
    by_cases h1 : i < x.length - 1
    · rw [if_pos h1]
      by_cases h2 : x.getD (i - 1) 0 < x.getD i 0
      · rw [if_pos h2]
        set iA := scanPlateau x (x.length - 1) (x.getD i 0) (i + 1) x.length
          with hiA
        have hA1 : i + 1 ≤ iA :=
          scanPlateau_ge x (x.length - 1) (x.getD i 0) x.length (i + 1)
        by_cases h3 : x.getD iA 0 < x.getD i 0
        · rw [if_pos h3]
          refine List.pairwise_cons.mpr ⟨?_, ih (iA + 1)⟩
          intro m hm
          have := localMaxFrom_lb x fuel (iA + 1) m hm
          omega
        · rw [if_neg h3]
          exact ih (i + 1)
      · rw [if_neg h2]
        exact ih (i + 1)
    · rw [if_neg h1]
      exact List.Pairwise.nil

lemma find_peaks_pairwise (x : List ℚ) (h : ℚ) :
    List.Pairwise (· < ·) (find_peaks x h) :=
  (localMaxFrom_pairwise x x.length 1).filter _

/-- C6 (corrected): the detector computes `threshold = p * max(ecg)` and
returns the strictly increasing list of *plateau-peak midpoints* with
value ≥ threshold: positions `(l + r) / 2` for maximal equal-valued runs
`x[l..r]` strictly above the neighbouring sample on *both* sides
(`x[l-1] < x[l]` and `x[r+1] < x[l]`, with `1 ≤ l` and
`r + 1 ≤ length − 1`), each qualifying plateau reported once.  The
spec's weaker "≥ both neighbours and > at least one" samples are *not*
all reported: a run that ties one neighbour on a rising flank is
skipped. -/
theorem C6_peak_detector :
    (∀ (x : List ℚ) (h : ℚ) (p : Nat),
        p ∈ find_peaks x h ↔
          (∃ l r, IsPlateauPeak x l r ∧ p = (l + r) / 2) ∧
          h ≤ x.getD p 0) ∧
    (∀ (x : List ℚ) (h : ℚ), List.Pairwise (· < ·) (find_peaks x h)) ∧
    (∀ (df : List LRow) (pct m : ℚ),
        maxList (df.map LRow.ecg) = some m →
        detecteer_Rpieken df pct
          = Except.ok ((find_peaks (df.map LRow.ecg) (pct * m)).filterMap
              (fun p => df.get? p))) := by
  refine ⟨find_peaks_mem, find_peaks_pairwise, ?_⟩
  intro df pct m hmax
  simp [detecteer_Rpieken, hmax]

/-- Witness for C6: on `[0, 1, 1, 2, 0]` position 3 is the midpoint of
the singleton plateau `x[3..3]`, and the row selection of the detector
is the threshold-filtered peak list with threshold `(3/5) * 5`. -/
theorem C6_peak_detector_witness :
    3 ∈ find_peaks [0, 1, 1, 2, 0] 1 ∧
    detecteer_Rpieken [⟨0, 0, none⟩, ⟨1, 5, none⟩, ⟨2, 0, none⟩] (3/5)
      = Except.ok
          ((find_peaks
              ([(⟨0, 0, none⟩ : LRow), ⟨1, 5, none⟩, ⟨2, 0, none⟩].map
                LRow.ecg) ((3/5) * 5)).filterMap
            (fun p =>
              [(⟨0, 0, none⟩ : LRow), ⟨1, 5, none⟩, ⟨2, 0, none⟩].get? p)) := by
  constructor
  · refine (C6_peak_detector.1 [0, 1, 1, 2, 0] 1 3).mpr ⟨⟨3, 3, ?_, by decide⟩, by decide⟩
    refine ⟨by decide, le_refl 3, by decide, by decide, ?_, by decide⟩
    intro j hj1 hj2
    have hj : j = 3 := le_antisymm hj2 hj1
    rw [hj]
  · exact C6_peak_detector.2.2 [⟨0, 0, none⟩, ⟨1, 5, none⟩, ⟨2, 0, none⟩]
      (3/5) 5 (by decide)

/-- Counterexample to C6 as stated: on `[0, 1, 1, 2, 0]` with threshold
`1 = (1/2) * max`, position 1 satisfies the spec's local-maximum
definition (≥ both neighbours, > the left one) and clears the
threshold, yet the detector reports only `[3]` — neither sample of the
`[1, 1]` run appears, because the run is followed by a strictly higher
sample, not a lower one. -/
theorem C6_peak_detector_counterexample :
    ((1 : ℚ) = (1/2) * 2) ∧
    specLocalMax [0, 1, 1, 2, 0] 1 ∧
    (1 : ℚ) ≤ ([0, 1, 1, 2, 0] : List ℚ).getD 1 0 ∧
    find_peaks [0, 1, 1, 2, 0] 1 = [3] ∧
    1 ∉ find_peaks [0, 1, 1, 2, 0] 1 ∧
    2 ∉ find_peaks [0, 1, 1, 2, 0] 1 := by
  refine ⟨by norm_num, by decide, by decide, by decide, by decide, by decide⟩

/-- C10 (confirmed): the peak list never contains the first or the last
sample position — every reported position `p` has `1 ≤ p` and
`p + 1 < length`; in particular a series whose maximum sits only at the
first (`[5, 1, 0]`) or last (`[0, 1, 5]`) sample yields no peak there
even though the value exceeds the threshold `3`. -/
theorem C10_no_endpoint_peaks :
    (∀ (x : List ℚ) (h : ℚ) (p : Nat), p ∈ find_peaks x h →
        p ≠ 0 ∧ p ≠ x.length - 1 ∧ 1 ≤ p ∧ p + 1 < x.length) ∧
    find_peaks [5, 1, 0] 3 = [] ∧
    find_peaks [0, 1, 5] 3 = [] := by
  refine ⟨?_, by decide, by decide⟩
  intro x h p hp
  obtain ⟨⟨l, r, hpk, hm⟩, -⟩ := (find_peaks_mem x h p).mp hp
  obtain ⟨h1, h2, h3, -⟩ := hpk
  omega

/-- Witness for C10: the reported peak `1` of `[0, 5, 0]` is interior. -/
theorem C10_no_endpoint_peaks_witness :
    1 ∈ find_peaks [0, 5, 0] 3 ∧ (1 : Nat) ≠ 0 ∧
    1 ≠ ([0, 5, 0] : List ℚ).length - 1 := by
  have hmem : 1 ∈ find_peaks [0, 5, 0] 3 := by decide
  have h := C10_no_endpoint_peaks.1 [0, 5, 0] 3 1 hmem
  exact ⟨hmem, h.1, h.2.1⟩

end Dashboard
